import Mathlib

/-!
Shallow embedding of `src/basic_bot.py`, a signed REST client for Binance
futures testnet plus a TWAP slicing layer.

Modelling conventions:
* A Python `dict` of request parameters is an insertion-ordered association
  list `Params := List (String × String)`; values are already rendered to
  strings (Python applies `str` at insertion or inside `urlencode`).
* `dict.setdefault k v` is `setdefault`; `d[k] = v` is `dictSet` (replace in
  place when the key exists, append otherwise), matching Python dict
  insertion-order semantics.
* The Python stdlib digest `hmac.new(secret, msg, sha256).hexdigest()` is
  external library code, not code of this repository; it is modelled as an
  explicit function argument `digest : String → String → String`, so every
  theorem holds for an arbitrary deterministic digest.
* Exceptions become `Except`: `ValueError` raised by `place_order` is
  `Except.error msg`; a reached network call is the `Except.ok` payload.
* Numeric quantities are `ℚ`; no claim depends on Python float rounding or
  on the exact decimal rendering `qstr`.
-/

namespace BasicBot

/-- Insertion-ordered parameter mapping, the embedding of a Python dict of
request parameters. -/
abbrev Params := List (String × String)

/-- First-match key lookup, the embedding of Python `d[k]` / `k in d`. -/
def getVal : Params → String → Option String
  | [], _ => none
  | (k, v) :: rest, key => if k = key then some v else getVal rest key

/-- Embedding of Python `k in d`. -/
def hasKey (p : Params) (k : String) : Bool :=
  (getVal p k).isSome

/-- Embedding of Python `d.setdefault(k, v)`: insert `(k, v)` at the end only
when the key is absent. -/
def setdefault (p : Params) (k v : String) : Params :=
  if hasKey p k then p else p ++ [(k, v)]

/-- Embedding of Python `d[k] = v`: replace the value in place when the key
exists (keeping its position, as dicts do), append otherwise. -/
def dictSet : Params → String → String → Params
  | [], k, v => [(k, v)]
  | (k0, v0) :: rest, k, v =>
    if k0 = k then (k, v) :: rest else (k0, v0) :: dictSet rest k v

/-- Upper-case hex digit of a value below 16, as used by `urllib` percent
escapes. -/
def hexDigitChar (n : Nat) : Char :=
  if n < 10 then Char.ofNat (48 + n) else Char.ofNat (55 + n % 16)

/-- UTF-8 byte sequence of a character, written with plain `Nat` arithmetic. -/
def utf8ByteList (c : Char) : List Nat :=
  let n := c.toNat
  if n < 128 then [n]
  else if n < 2048 then [192 + n / 64, 128 + n % 64]
  else if n < 65536 then [224 + n / 4096, 128 + n / 64 % 64, 128 + n % 64]
  else [240 + n / 262144, 128 + n / 4096 % 64, 128 + n / 64 % 64, 128 + n % 64]

/-- Characters `urllib.parse.quote_plus` leaves unescaped. -/
def isUrlSafe (c : Char) : Bool :=
  c.isAlphanum || c = '_' || c = '.' || c = '-' || c = '~'

/-- Percent escape of one byte. -/
def pctEncodeByte (b : Nat) : List Char :=
  ['%', hexDigitChar (b / 16 % 16), hexDigitChar (b % 16)]

/-- Embedding of `urllib.parse.quote_plus` on one character. -/
def quotePlusChar (c : Char) : List Char :=
  if isUrlSafe c then [c]
  else if c = ' ' then ['+']
  else (utf8ByteList c).flatMap pctEncodeByte

/-- Embedding of `urllib.parse.quote_plus`. -/
def quotePlus (s : String) : String :=
  String.mk (s.data.flatMap quotePlusChar)

/-- Embedding of `urllib.parse.urlencode(params, doseq=True)` on an ordered
string-to-string mapping: ampersand-joined `key=value` pairs in insertion
order, percent-encoded. -/
def urlencode (params : Params) : String :=
  String.intercalate "&" (params.map fun kv => quotePlus kv.1 ++ "=" ++ quotePlus kv.2)

/-- Embedding of `BinanceFuturesClient._sign` (src/basic_bot.py lines 66 to
76): copy the params (`params_copy = dict(params)`), serialize them with
`urlencode`, apply the HMAC-SHA256 digest (passed in abstractly as `digest`,
see module comment), and store the hex digest under the key `signature` in the
copy. The argument mapping itself is never mutated, only the copy is. -/
def sign (digest : String → String → String) (apiSecret : String) (params : Params) : Params :=
  let paramsCopy := params
  let qs := urlencode paramsCopy
  let signature := digest apiSecret qs
  dictSet paramsCopy "signature" signature

/-- Caller-visible state of the `params` argument after `_sign` returns:
unchanged, because the body mutates only `params_copy = dict(params)`. -/
def signParamsAfter (params : Params) : Params :=
  params

/-- The recvWindow default from `BinanceFuturesClient.__init__`
(src/basic_bot.py line 55). -/
def RECV_WINDOW_DEFAULT : Nat := 5000

/-- Embedding of the signed-parameter preparation in
`BinanceFuturesClient._request` (src/basic_bot.py lines 81 to 84): when
`signed`, inject `timestamp` (the value of `_get_timestamp()` read at call
time, passed here as `now`) and `recvWindow` (the client field `recv_window`,
passed here as `recvWindow`) with `setdefault`, then sign. The result is the
outgoing parameter set handed to the HTTP session. -/
def buildSignedParams (digest : String → String → String) (apiSecret : String)
    (params : Params) (now recvWindow : String) : Params :=
  sign digest apiSecret (setdefault (setdefault params "timestamp" now) "recvWindow" recvWindow)

/-- Caller-visible state of the `params` argument after `_request` returns
(src/basic_bot.py lines 80 to 84). `params = params or {}` keeps the caller
object exactly when the caller passed a non-empty dict; the two `setdefault`
calls then mutate that object in place. The later `params = self._sign(params)`
only rebinds the local name to a fresh copy, so `signature` never reaches the
caller mapping. -/
def requestParamsAfterCall (params : Params) (now recvWindow : String) (signed : Bool) : Params :=
  if signed && !params.isEmpty then
    setdefault (setdefault params "timestamp" now) "recvWindow" recvWindow
  else params

/-- Result classification of one HTTP response by
`BinanceFuturesClient._request` (src/basic_bot.py lines 100 to 111).
`J` is the type of parsed JSON payloads. -/
inductive RequestOutcome (J : Type) where
  /-- `return data`: parsed JSON body returned as success. -/
  | jsonSuccess (data : J)
  /-- `return r.text`: raw unparsed body returned as success. -/
  | textSuccess (text : String)
  /-- `r.raise_for_status()` raised `requests.HTTPError`. -/
  | httpError (status : Nat)
  /-- `raise Exception(f"API Error ...")` with status and JSON payload. -/
  | exchangeError (status : Nat) (payload : J)
deriving DecidableEq, Repr

/-- Embedding of the response-classification tail of
`BinanceFuturesClient._request` (src/basic_bot.py lines 100 to 111):
`try: data = r.json()`; on parse failure `r.raise_for_status()` (which raises
exactly when `400 ≤ status < 600`) and otherwise `return r.text`; on parse
success, statuses `≥ 400` raise the exchange error carrying status and
payload, and the rest return the parsed body. `jsonBody` is `some data` when
`r.json()` parses and `none` when it raises. -/
def classifyResponse {J : Type} (status : Nat) (jsonBody : Option J) (text : String) :
    RequestOutcome J :=
  match jsonBody with
  | none => if 400 ≤ status ∧ status < 600 then .httpError status else .textSuccess text
  | some data => if 400 ≤ status then .exchangeError status data else .jsonSuccess data

/-- Whether an outcome is one of the raised errors (as opposed to a value
returned as success). -/
def isErrorOutcome {J : Type} : RequestOutcome J → Bool
  | .httpError _ => true
  | .exchangeError _ _ => true
  | .jsonSuccess _ => false
  | .textSuccess _ => false

/-- Decimal rendering of a quantity, the embedding of Python `str` on the
numeric order fields. No claim depends on the exact rendering. -/
def qstr (q : ℚ) : String :=
  toString q

/-- Embedding of Python `str.upper()` as used on `symbol`, `side` and
`order_type`: ASCII upper-casing, written with structural recursion so
concrete instances evaluate inside the kernel. -/
def pyUpper (s : String) : String :=
  String.mk (s.data.map Char.toUpper)

/-- The stop-family order types of src/basic_bot.py line 146. -/
def stopFamily : List String :=
  ["STOP", "STOP_MARKET", "TAKE_PROFIT", "TAKE_PROFIT_MARKET"]

/-- Embedding of the parameter assembly and validation of
`BinanceFuturesClient.place_order` (src/basic_bot.py lines 120 to 161).
`Except.error msg` is the `ValueError(msg)` raised before `_request` is ever
reached; `Except.ok params` is the parameter set passed to
`_request("POST", ORDER_ENDPOINT, params=params, signed=True)`. -/
def place_order (symbol side order_type : String) (quantity : ℚ) (price : Option ℚ)
    (time_in_force : String) (reduce_only : Bool) (stop_price : Option ℚ)
    (close_position : Bool) : Except String Params :=
  let params0 : Params :=
    [("symbol", pyUpper symbol), ("side", pyUpper side),
     ("type", pyUpper order_type), ("quantity", qstr quantity)]
  let step1 : Except String Params :=
    if pyUpper order_type = "LIMIT" then
      match price with
      | none => Except.error "LIMIT orders require --price"
      | some p => Except.ok (params0 ++ [("price", qstr p), ("timeInForce", time_in_force)])
    else Except.ok params0
  match step1 with
  | Except.error e => Except.error e
  | Except.ok params1 =>
    let step2 : Except String Params :=
      if pyUpper order_type ∈ stopFamily then
        match stop_price with
        | none => Except.error "STOP orders require --stop_price"
        | some sp =>
          let params2 := params1 ++ [("stopPrice", qstr sp)]
          Except.ok (if pyUpper order_type = "STOP" then dictSet params2 "type" "STOP_MARKET" else params2)
      else Except.ok params1
    match step2 with
    | Except.error e => Except.error e
    | Except.ok params3 =>
      let params4 := if reduce_only then params3 ++ [("reduceOnly", "true")] else params3
      let params5 := if close_position then params4 ++ [("closePosition", "true")] else params4
      Except.ok params5

/-- The network calls `place_order` issues: none when validation raises, and
exactly the one signed POST to `/fapi/v1/order` otherwise (the only `_request`
call site in `place_order` is src/basic_bot.py line 161, after validation). -/
def place_order_network_calls (symbol side order_type : String) (quantity : ℚ)
    (price : Option ℚ) (time_in_force : String) (reduce_only : Bool)
    (stop_price : Option ℚ) (close_position : Bool) : List Params :=
  match place_order symbol side order_type quantity price time_in_force reduce_only
      stop_price close_position with
  | Except.error _ => []
  | Except.ok p => [p]

/-- One MARKET order submission made by a TWAP slice
(`BasicBot.place_market_order`, src/basic_bot.py line 215). -/
structure MarketOrderCall where
  symbol : String
  side : String
  orderType : String
  quantity : ℚ
deriving DecidableEq, Repr

/-- Per-slice entry appended to the TWAP results list
(src/basic_bot.py lines 216 and 219): the order response on success, or
`{"error": str(e)}` when the slice raised. -/
inductive SliceResult (R : Type) where
  | success (r : R)
  | errorRecord (msg : String)
deriving DecidableEq, Repr

/-- The one way `place_twap` itself can raise for a plan: the
`ZeroDivisionError` of `total_quantity / slices` at src/basic_bot.py
line 210 when `slices = 0`. -/
inductive TwapError where
  | zeroDivisionError
deriving DecidableEq, Repr

/-- How one slice attempt is recorded (the try/except of src/basic_bot.py
lines 214 to 219). -/
def sliceStep {R : Type} : Except String R → SliceResult R
  | Except.ok r => SliceResult.success r
  | Except.error e => SliceResult.errorRecord e

/-- The slice loop of `BasicBot.place_twap` (src/basic_bot.py lines 212 to
221) over a list of slice indices: attempt the market order for each index in
order, record success or error, and always continue to the next index.
`exchange i call` is the outcome of the signed order submission for the i-th
attempt. Returns the results list and the trace of order calls issued. -/
def twapLoop {R : Type} (exchange : Nat → MarketOrderCall → Except String R)
    (call : MarketOrderCall) : List Nat → List (SliceResult R) × List MarketOrderCall
  | [] => ([], [])
  | i :: rest =>
    let res := sliceStep (exchange i call)
    let (outs, calls) := twapLoop exchange call rest
    (res :: outs, call :: calls)

/-- Embedding of `BasicBot.place_twap` (src/basic_bot.py lines 204 to 223):
`per_slice = total_quantity / slices` (a `ZeroDivisionError` when
`slices = 0`), then `for i in range(slices)` place a MARKET order for
`per_slice` and record the per-slice outcome; `range` of a negative count is
empty, exactly as in Python. The inter-slice `time.sleep` affects only
timing and is not modelled. -/
def place_twap {R : Type} (exchange : Nat → MarketOrderCall → Except String R)
    (symbol side : String) (total_quantity : ℚ) (slices : Int) :
    Except TwapError (List (SliceResult R) × List MarketOrderCall) :=
  if slices = 0 then Except.error TwapError.zeroDivisionError
  else
    let per_slice := total_quantity / (slices : ℚ)
    let call : MarketOrderCall := ⟨symbol, side, "MARKET", per_slice⟩
    Except.ok (twapLoop exchange call (List.range slices.toNat))

/-! ### Association-list lemmas -/

theorem getVal_append_some {p q : Params} {k v : String} (h : getVal p k = some v) :
    getVal (p ++ q) k = some v := by
  induction p with
  | nil => simp [getVal] at h
  | cons kv rest ih =>
    obtain ⟨k0, v0⟩ := kv
    by_cases hk : k0 = k
    · simp only [getVal, List.cons_append, if_pos hk] at h ⊢
      exact h
    · simp only [getVal, List.cons_append, if_neg hk] at h ⊢
      exact ih h

theorem getVal_append_none {p q : Params} {k : String} (h : getVal p k = none) :
    getVal (p ++ q) k = getVal q k := by
  induction p with
  | nil => simp
  | cons kv rest ih =>
    obtain ⟨k0, v0⟩ := kv
    by_cases hk : k0 = k
    · simp [getVal, hk] at h
    · simp only [getVal, List.cons_append, if_neg hk] at h ⊢
      exact ih h

theorem getVal_dictSet_ne {p : Params} {k kq v : String} (h : kq ≠ k) :
    getVal (dictSet p k v) kq = getVal p kq := by
  induction p with
  | nil =>
    simp only [dictSet, getVal]
    rw [if_neg (fun hh : k = kq => h (Eq.symm hh))]
  | cons kv rest ih =>
    obtain ⟨k0, v0⟩ := kv
    by_cases hk : k0 = k
    · subst hk
      simp only [dictSet, if_pos rfl, getVal]
      simp only [if_neg (fun hh : k0 = kq => h (Eq.symm hh))]
    · simp only [dictSet, if_neg hk, getVal]
      by_cases hq : k0 = kq
      · simp [hq]
      · simp only [if_neg hq]
        exact ih

theorem dictSet_of_not_hasKey {p : Params} {k v : String} (h : hasKey p k = false) :
    dictSet p k v = p ++ [(k, v)] := by
  induction p with
  | nil => rfl
  | cons kv rest ih =>
    obtain ⟨k0, v0⟩ := kv
    have h0 : k0 ≠ k := by
      intro he
      subst he
      simp [hasKey, getVal] at h
    have h1 : hasKey rest k = false := by
      simpa [hasKey, getVal, h0] using h
    simp [dictSet, h0, ih h1]

theorem getVal_setdefault_self (p : Params) (k v : String) :
    getVal (setdefault p k v) k = some ((getVal p k).getD v) := by
  unfold setdefault hasKey
  cases hg : getVal p k with
  | none =>
    simp only [hg, Option.isSome_none, Bool.false_eq_true, if_false, Option.getD_none]
    rw [getVal_append_none hg]
    simp [getVal]
  | some w =>
    simp [hg]

theorem getVal_setdefault_ne {p : Params} {k kq : String} (v : String) (h : kq ≠ k) :
    getVal (setdefault p k v) kq = getVal p kq := by
  unfold setdefault
  by_cases hk : hasKey p k
  · simp [hk]
  · simp only [hk, Bool.false_eq_true, if_false]
    cases hg : getVal p kq with
    | none =>
      rw [getVal_append_none hg]
      simp only [getVal]
      rw [if_neg (fun hh : k = kq => h (Eq.symm hh))]
    | some w =>
      exact getVal_append_some hg

theorem setdefault_length (p : Params) (k v : String) :
    (setdefault p k v).length = if hasKey p k then p.length else p.length + 1 := by
  unfold setdefault
  by_cases h : hasKey p k <;> simp [h]

theorem getVal_sign_ne (digest : String → String → String) (secret : String) (p : Params)
    {kq : String} (h : kq ≠ "signature") :
    getVal (sign digest secret p) kq = getVal p kq :=
  getVal_dictSet_ne h

/-! ### Claim theorems -/

/-- C1: `_sign` is deterministic — identical params and secret give identical
results — and for any params not containing a `signature` key the result is
the original mapping with the `signature` entry appended, while the argument
mapping itself is left unmodified (the body mutates only `dict(params)`). -/
theorem sign_deterministic_pure (digest : String → String → String) (secret : String)
    (P Q : Params) (hsig : hasKey P "signature" = false) (hPQ : P = Q) :
    sign digest secret P = sign digest secret Q ∧
    sign digest secret P = P ++ [("signature", digest secret (urlencode P))] ∧
    signParamsAfter P = P := by
  subst hPQ
  refine ⟨rfl, ?_, rfl⟩
  unfold sign
  exact dictSet_of_not_hasKey hsig

theorem sign_deterministic_pure_witness :
    hasKey [("symbol", "BTCUSDT")] "signature" = false ∧
    (sign (fun s m => s ++ m) "sec" [("symbol", "BTCUSDT")] =
       sign (fun s m => s ++ m) "sec" [("symbol", "BTCUSDT")] ∧
     sign (fun s m => s ++ m) "sec" [("symbol", "BTCUSDT")] =
       [("symbol", "BTCUSDT")] ++
         [("signature", (fun s m => s ++ m) "sec" (urlencode [("symbol", "BTCUSDT")]))] ∧
     signParamsAfter [("symbol", "BTCUSDT")] = [("symbol", "BTCUSDT")]) :=
  ⟨by decide, sign_deterministic_pure (fun s m => s ++ m) "sec" _ _ (by decide) rfl⟩

/-- C4: when the response body parses as JSON, a status `≥ 400` raises the
exchange error carrying the status code and the parsed payload (never
silently swallowed — the outcome is an error outcome exactly when
`400 ≤ status`), and a status `< 400` returns the parsed body as success. -/
theorem request_json_classification {J : Type} (status : Nat) (j : J) (t : String) :
    classifyResponse status (some j) t =
      (if 400 ≤ status then RequestOutcome.exchangeError status j
       else RequestOutcome.jsonSuccess j) ∧
    isErrorOutcome (classifyResponse status (some j) t) = decide (400 ≤ status) := by
  refine ⟨rfl, ?_⟩
  by_cases h : 400 ≤ status <;> simp [classifyResponse, isErrorOutcome, h]

/-- C5: the outgoing parameters of a signed request always carry `timestamp`
and `recvWindow`: a missing key is injected (`timestamp` with the clock value
`now` read at call time, `recvWindow` with the client value, default 5000),
and a caller-supplied value is kept unchanged. -/
theorem signed_request_carries_timestamp_recvWindow (digest : String → String → String)
    (secret : String) (params : Params) (now rw0 : String) :
    getVal (buildSignedParams digest secret params now rw0) "timestamp" =
      some ((getVal params "timestamp").getD now) ∧
    getVal (buildSignedParams digest secret params now rw0) "recvWindow" =
      some ((getVal params "recvWindow").getD rw0) := by
  constructor
  · unfold buildSignedParams
    rw [getVal_sign_ne digest secret _ (by decide)]
    rw [getVal_setdefault_ne rw0 (by decide)]
    exact getVal_setdefault_self params "timestamp" now
  · unfold buildSignedParams
    rw [getVal_sign_ne digest secret _ (by decide)]
    rw [getVal_setdefault_self]
    rw [getVal_setdefault_ne now (by decide)]

/-- C6 counterexample: a non-JSON body with status 200 is returned verbatim
as success (`return r.text`), not surfaced as a ProtocolError — at status
200 and body `"pong"` the classification is a success outcome. -/
theorem non_json_success_counterexample :
    classifyResponse (J := Unit) 200 none "pong" = RequestOutcome.textSuccess "pong" ∧
    isErrorOutcome (classifyResponse (J := Unit) 200 none "pong") = false :=
  ⟨rfl, rfl⟩

/-- C6 amended: when the response body fails to parse as JSON, a status in
`[400, 600)` raises an HTTPError for that status (`raise_for_status`), and
any other status returns the raw unparsed body text as success — no
ProtocolError is ever raised. -/
theorem non_json_classification {J : Type} (status : Nat) (t : String) :
    classifyResponse (J := J) status none t =
      (if 400 ≤ status ∧ status < 600 then RequestOutcome.httpError status
       else RequestOutcome.textSuccess t) ∧
    isErrorOutcome (classifyResponse (J := J) status none t) =
      decide (400 ≤ status ∧ status < 600) := by
  refine ⟨rfl, ?_⟩
  by_cases h : 400 ≤ status ∧ status < 600 <;> simp [classifyResponse, isErrorOutcome, h]

/-- C10 counterexample: a non-empty caller mapping that already contains both
`timestamp` and `recvWindow` is left completely unchanged by a signed request
(`setdefault` inserts nothing), so the caller mapping is not always mutated. -/
theorem request_params_unchanged_counterexample :
    ([("timestamp", "1"), ("recvWindow", "2")] : Params) ≠ [] ∧
    requestParamsAfterCall [("timestamp", "1"), ("recvWindow", "2")] "999" "5000" true =
      [("timestamp", "1"), ("recvWindow", "2")] := by
  exact ⟨by decide, rfl⟩

/-- C10 amended: for a signed request whose caller passes a non-empty params
mapping missing `timestamp` or `recvWindow`, the caller mapping is mutated in
place — after the call it differs from the original, carries both keys, and
still has no `signature` entry added (the signature goes only to the fresh
copy made by `_sign`). -/
theorem request_params_mutated_in_place (params : Params) (now rw0 : String)
    (hne : params ≠ [])
    (hmiss : hasKey params "timestamp" = false ∨ hasKey params "recvWindow" = false) :
    requestParamsAfterCall params now rw0 true ≠ params ∧
    hasKey (requestParamsAfterCall params now rw0 true) "timestamp" = true ∧
    hasKey (requestParamsAfterCall params now rw0 true) "recvWindow" = true ∧
    getVal (requestParamsAfterCall params now rw0 true) "signature" =
      getVal params "signature" := by
  have hie : params.isEmpty = false := by
    cases params with
    | nil => exact absurd rfl hne
    | cons a l => rfl
  have hafter : requestParamsAfterCall params now rw0 true =
      setdefault (setdefault params "timestamp" now) "recvWindow" rw0 := by
    simp [requestParamsAfterCall, hie]
  rw [hafter]
  refine ⟨?_, ?_, ?_, ?_⟩
  · have hlen : params.length <
        (setdefault (setdefault params "timestamp" now) "recvWindow" rw0).length := by
      rcases hmiss with hm | hm
      · have hA : (setdefault params "timestamp" now).length = params.length + 1 := by
          rw [setdefault_length, hm]
          simp
        rw [setdefault_length]
        split <;> omega
      · have hrw : hasKey (setdefault params "timestamp" now) "recvWindow" = false := by
          unfold hasKey at hm ⊢
          rw [getVal_setdefault_ne now (by decide)]
          exact hm
        have hA : params.length ≤ (setdefault params "timestamp" now).length := by
          rw [setdefault_length]
          split <;> omega
        rw [setdefault_length, hrw]
        simp
        omega
    intro he
    have := congrArg List.length he
    omega
  · unfold hasKey
    rw [getVal_setdefault_ne rw0 (by decide), getVal_setdefault_self]
    rfl
  · unfold hasKey
    rw [getVal_setdefault_self]
    rfl
  · rw [getVal_setdefault_ne rw0 (by decide), getVal_setdefault_ne now (by decide)]

theorem request_params_mutated_in_place_witness :
    ([("symbol", "BTCUSDT")] : Params) ≠ [] ∧
    hasKey [("symbol", "BTCUSDT")] "timestamp" = false ∧
    (requestParamsAfterCall [("symbol", "BTCUSDT")] "111" "5000" true ≠
       [("symbol", "BTCUSDT")] ∧
     hasKey (requestParamsAfterCall [("symbol", "BTCUSDT")] "111" "5000" true) "timestamp" =
       true ∧
     hasKey (requestParamsAfterCall [("symbol", "BTCUSDT")] "111" "5000" true) "recvWindow" =
       true ∧
     getVal (requestParamsAfterCall [("symbol", "BTCUSDT")] "111" "5000" true) "signature" =
       getVal [("symbol", "BTCUSDT")] "signature") :=
  ⟨by decide, by decide,
   request_params_mutated_in_place [("symbol", "BTCUSDT")] "111" "5000" (by decide)
     (Or.inl (by decide))⟩

/-! ### TWAP loop lemmas -/

theorem twapLoop_eq {R : Type} (exchange : Nat → MarketOrderCall → Except String R)
    (call : MarketOrderCall) (l : List Nat) :
    twapLoop exchange call l =
      (l.map fun i => sliceStep (exchange i call), l.map fun _ => call) := by
  induction l with
  | nil => rfl
  | cons i rest ih => simp [twapLoop, ih]

theorem place_twap_ok {R : Type} (exchange : Nat → MarketOrderCall → Except String R)
    (sym side : String) (total : ℚ) (n : Nat) (h1 : 1 ≤ n) :
    place_twap exchange sym side total (n : Int) =
      Except.ok
        ((List.range n).map fun i =>
           sliceStep (exchange i ⟨sym, side, "MARKET", total / (n : ℚ)⟩),
         List.replicate n ⟨sym, side, "MARKET", total / (n : ℚ)⟩) := by
  have hn0 : ¬((n : Int) = 0) := by
    simp only [Int.natCast_eq_zero]
    omega
  simp only [place_twap, hn0, if_false, twapLoop_eq, Int.toNat_natCast, Int.cast_natCast,
    Except.ok.injEq, Prod.mk.injEq]
  constructor
  · trivial
  · rw [List.map_const', List.length_range]

/-! ### Claim theorems for the order service and TWAP -/

/-- C2: a LIMIT order without a price, or a stop-family order without a stop
price, makes `place_order` raise the `ValueError` validation failure before
`_request` is reached, and the set of network calls issued is empty. -/
theorem place_order_validation_fails_fast (symbol side order_type : String) (quantity : ℚ)
    (price : Option ℚ) (time_in_force : String) (reduce_only : Bool)
    (stop_price : Option ℚ) (close_position : Bool)
    (h : (pyUpper order_type = "LIMIT" ∧ price = none) ∨
         (pyUpper order_type ∈ stopFamily ∧ stop_price = none)) :
    (∃ msg, place_order symbol side order_type quantity price time_in_force reduce_only
        stop_price close_position = Except.error msg) ∧
    place_order_network_calls symbol side order_type quantity price time_in_force reduce_only
        stop_price close_position = [] := by
  rcases h with ⟨hL, hp⟩ | ⟨hS, hsp⟩
  · have hpo : place_order symbol side order_type quantity price time_in_force reduce_only
        stop_price close_position = Except.error "LIMIT orders require --price" := by
      simp [place_order, hL, hp]
    exact ⟨⟨_, hpo⟩, by simp [place_order_network_calls, hpo]⟩
  · have hne : ¬(pyUpper order_type = "LIMIT") := by
      simp only [stopFamily, List.mem_cons, List.not_mem_nil, or_false] at hS
      rcases hS with h1 | h1 | h1 | h1 <;> rw [h1] <;> decide
    have hpo : place_order symbol side order_type quantity price time_in_force reduce_only
        stop_price close_position = Except.error "STOP orders require --stop_price" := by
      simp [place_order, hne, hS, hsp]
    exact ⟨⟨_, hpo⟩, by simp [place_order_network_calls, hpo]⟩

theorem place_order_validation_fails_fast_witness :
    ((pyUpper "LIMIT" = "LIMIT" ∧ (none : Option ℚ) = none) ∨
       (pyUpper "LIMIT" ∈ stopFamily ∧ (none : Option ℚ) = none)) ∧
    ((∃ msg, place_order "BTCUSDT" "BUY" "LIMIT" 1 none "GTC" false none false =
        Except.error msg) ∧
     place_order_network_calls "BTCUSDT" "BUY" "LIMIT" 1 none "GTC" false none false = []) :=
  ⟨Or.inl ⟨by decide, rfl⟩,
   place_order_validation_fails_fast "BTCUSDT" "BUY" "LIMIT" 1 none "GTC" false none false
     (Or.inl ⟨by decide, rfl⟩)⟩

/-- C9: an order of type `STOP` with a stop price present goes out with its
`type` parameter rewritten to `STOP_MARKET` before signing, together with the
`stopPrice` parameter. -/
theorem place_order_stop_rewritten (symbol side order_type : String) (quantity : ℚ)
    (price : Option ℚ) (time_in_force : String) (reduce_only close_position : Bool) (sp : ℚ)
    (h : pyUpper order_type = "STOP") :
    ∃ p, place_order symbol side order_type quantity price time_in_force reduce_only
        (some sp) close_position = Except.ok p ∧
      getVal p "type" = some "STOP_MARKET" ∧
      getVal p "stopPrice" = some (qstr sp) := by
  have hne : ¬(pyUpper order_type = "LIMIT") := by
    rw [h]
    decide
  have hmem : pyUpper order_type ∈ stopFamily := by
    rw [h]
    decide
  cases reduce_only <;> cases close_position <;>
    simp [place_order, h, hne, hmem, stopFamily, dictSet, getVal]

theorem place_order_stop_rewritten_witness :
    pyUpper "stop" = "STOP" ∧
    (∃ p, place_order "btcusdt" "buy" "stop" 1 none "GTC" false (some 30000) false =
        Except.ok p ∧
      getVal p "type" = some "STOP_MARKET" ∧
      getVal p "stopPrice" = some (qstr 30000)) :=
  ⟨by decide,
   place_order_stop_rewritten "btcusdt" "buy" "stop" 1 none "GTC" false false 30000 (by decide)⟩

/-- C3: for a TWAP plan with at least one slice, the outcome list always has
one entry per slice — a failed slice is recorded as an error record holding
the error message at that slice position, and the run continues to the
remaining slices instead of aborting. -/
theorem place_twap_slice_isolation {R : Type}
    (exchange : Nat → MarketOrderCall → Except String R) (sym side : String) (total : ℚ)
    (n : Nat) (h1 : 1 ≤ n) (outs : List (SliceResult R)) (calls : List MarketOrderCall)
    (hrun : place_twap exchange sym side total (n : Int) = Except.ok (outs, calls)) :
    outs.length = n ∧
    (∀ i, i < n → ∀ e, exchange i ⟨sym, side, "MARKET", total / (n : ℚ)⟩ = Except.error e →
      outs[i]? = some (SliceResult.errorRecord e)) ∧
    (∀ i, i < n → ∀ r, exchange i ⟨sym, side, "MARKET", total / (n : ℚ)⟩ = Except.ok r →
      outs[i]? = some (SliceResult.success r)) := by
  rw [place_twap_ok exchange sym side total n h1] at hrun
  simp only [Except.ok.injEq, Prod.mk.injEq] at hrun
  obtain ⟨ho, -⟩ := hrun
  subst ho
  refine ⟨by simp, ?_, ?_⟩
  · intro i hi e he
    simp [List.getElem?_map, List.getElem?_range, hi, he, sliceStep]
  · intro i hi r hr
    simp [List.getElem?_map, List.getElem?_range, hi, hr, sliceStep]

theorem place_twap_slice_isolation_witness :
    ((List.range 4).map fun i =>
        sliceStep ((fun j (_ : MarketOrderCall) =>
            if j = 2 then Except.error "API Error" else Except.ok ()) i
          ⟨"BTCUSDT", "BUY", "MARKET", (100 : ℚ) / ((4 : Nat) : ℚ)⟩)).length = 4 ∧
    ((List.range 4).map fun i =>
        sliceStep ((fun j (_ : MarketOrderCall) =>
            if j = 2 then Except.error "API Error" else Except.ok ()) i
          ⟨"BTCUSDT", "BUY", "MARKET", (100 : ℚ) / ((4 : Nat) : ℚ)⟩)) =
      [SliceResult.success (), SliceResult.success (), SliceResult.errorRecord "API Error",
       SliceResult.success ()] := by
  have h := place_twap_slice_isolation
    (fun j (_ : MarketOrderCall) => if j = 2 then Except.error "API Error" else Except.ok ())
    "BTCUSDT" "BUY" 100 4 (by decide) _ _
    (place_twap_ok _ "BTCUSDT" "BUY" 100 4 (by decide))
  exact ⟨h.1, by decide⟩

/-- C7 counterexample: a plan with `sliceCount = -1` is invalid
(`sliceCount < 1`), yet the run does not fail: `range(-1)` is empty and
`place_twap` returns an empty outcome successfully. -/
theorem place_twap_invalid_plan_ok_counterexample :
    (-1 : Int) < 1 ∧
    place_twap (fun _ _ => Except.ok ()) "BTCUSDT" "BUY" (100 : ℚ) (-1) =
      Except.ok ([], []) :=
  ⟨by decide, rfl⟩

/-- C7 amended: the `place_twap` run itself fails exactly when
`sliceCount = 0` (the division by zero in `total_quantity / slices`); for any
other slice count — including negative counts, which yield an empty outcome,
and any quantity, including non-positive ones — the run returns a TwapOutcome
and never fails, whatever the per-slice exchange outcomes are. -/
theorem place_twap_error_iff_slices_zero {R : Type}
    (exchange : Nat → MarketOrderCall → Except String R) (sym side : String) (total : ℚ)
    (n : Int) :
    (∃ e, place_twap exchange sym side total n = Except.error e) ↔ n = 0 := by
  unfold place_twap
  by_cases hn : n = 0
  · subst hn
    constructor
    · intro _
      trivial
    · intro _
      refine ⟨TwapError.zeroDivisionError, ?_⟩
      simp
  · simp [hn]

/-- C8: a TWAP run with `n ≥ 1` slices issues exactly `n` MARKET orders, each
for quantity `totalQuantity / n` (equal slices, no remainder redistribution),
sequentially in slice index order — the trace of issued calls is exactly `n`
copies of the same MARKET order in submission order. -/
theorem place_twap_equal_market_slices {R : Type}
    (exchange : Nat → MarketOrderCall → Except String R) (sym side : String) (total : ℚ)
    (n : Nat) (h1 : 1 ≤ n) (outs : List (SliceResult R)) (calls : List MarketOrderCall)
    (hrun : place_twap exchange sym side total (n : Int) = Except.ok (outs, calls)) :
    calls.length = n ∧
    calls = List.replicate n ⟨sym, side, "MARKET", total / (n : ℚ)⟩ := by
  rw [place_twap_ok exchange sym side total n h1] at hrun
  simp only [Except.ok.injEq, Prod.mk.injEq] at hrun
  obtain ⟨-, hc⟩ := hrun
  subst hc
  simp

theorem place_twap_equal_market_slices_witness :
    ((List.replicate 4
        (⟨"BTCUSDT", "BUY", "MARKET", (100 : ℚ) / ((4 : Nat) : ℚ)⟩ : MarketOrderCall)).length
      = 4 ∧
     List.replicate 4
        (⟨"BTCUSDT", "BUY", "MARKET", (100 : ℚ) / ((4 : Nat) : ℚ)⟩ : MarketOrderCall) =
       List.replicate 4 ⟨"BTCUSDT", "BUY", "MARKET", (100 : ℚ) / ((4 : Nat) : ℚ)⟩) ∧
    (100 : ℚ) / ((4 : Nat) : ℚ) = 25 := by
  constructor
  · exact place_twap_equal_market_slices (fun _ (_ : MarketOrderCall) => Except.ok ())
      "BTCUSDT" "BUY" 100 4 (by decide) _ _
      (place_twap_ok _ "BTCUSDT" "BUY" 100 4 (by decide))
  · norm_num

end BasicBot
